import Mathlib

/-!
Verification of the aircraft-landing-scheduling model builders.

This file shallowly embeds the model-formulation code of the repository
(`src/ALS/MIP.py`, `src/ALS/CP.py`, `src/ALS/utils.py`) in Lean 4 and proves
or refutes the frozen specification claims about it.

Conventions of the embedding:
* a plane record mirrors the dictionaries produced by `read_data`;
* separation matrices are lists of lists of integers, indexed with a default
  of 0 (all claims are about in-range indices);
* solver variables are deeply embedded as an inductive `Var`, linear
  constraints as `Cons` (with `OnlyEnforceIf` guards for the CP models), and
  an assignment is a function `Var → ℚ`; CP-SAT booleans are additionally
  required to take values in {0, 1} by the feasibility predicates;
* the builders are total functions producing variable bounds and constraint
  lists in the order the Python code posts them.
-/

namespace ALS

/-- One aircraft record, mirroring the dictionary built by `read_data`:
appearance time, window `earliest ≤ target ≤ latest` (not validated anywhere
in the code), and the two deviation penalties (floats in the source, modelled
as exact rationals). -/
structure Plane where
  appearance_time : Int
  earliest_landing_time : Int
  target_landing_time : Int
  latest_landing_time : Int
  penalty_early : Rat
  penalty_late : Rat
deriving DecidableEq

/-- Indexing `planes_data[i]`; out-of-range indices (which would raise in
Python and occur in no claim) default to the all-zero record. -/
def planeAt (ps : List Plane) (i : Nat) : Plane :=
  ps.getD i ⟨0, 0, 0, 0, 0, 0⟩

/-- Indexing `separation_times[i][j]`, defaulting to 0 out of range. -/
def sepAt (sep : List (List Int)) (i j : Nat) : Int :=
  (sep.getD i []).getD j 0

/-- A well-formed instance in the sense of the spec data model:
`earliest ≤ target ≤ latest` for every aircraft. -/
def wellFormed (ps : List Plane) : Prop :=
  ∀ p ∈ ps, p.earliest_landing_time ≤ p.target_landing_time ∧
    p.target_landing_time ≤ p.latest_landing_time

/-- Membership test of the ordered pair `(i,j)` in set W, as computed by the
model builders: `latest_i < earliest_j and latest_i + sep_ij <= earliest_j`. -/
def pairInW (li ej s : Int) : Bool :=
  decide (li < ej) && decide (li + s ≤ ej)

/-- Membership test of the ordered pair `(i,j)` in set V, as computed by the
model builders: `latest_i < earliest_j and latest_i + sep_ij > earliest_j`. -/
def pairInV (li ej s : Int) : Bool :=
  decide (li < ej) && decide (ej < li + s)

/-- Membership test of the ordered pair `(i,j)` in set U, as computed by the
model builders: the window-overlap disjunction
`(E_j <= E_i <= L_j) or (E_j <= L_i <= L_j) or (E_i <= E_j <= L_i) or
(E_i <= L_j <= L_i)`. -/
def pairInU (ei li ej lj : Int) : Bool :=
  ((decide (ej ≤ ei) && decide (ei ≤ lj)) || (decide (ej ≤ li) && decide (li ≤ lj))) ||
    ((decide (ei ≤ ej) && decide (ej ≤ li)) || (decide (ei ≤ lj) && decide (lj ≤ li)))

/-- The double loop `for i in range(n): for j in range(n): if i != j and keep`
used by all three pair-classification passes, returning the appended pairs in
loop order. -/
def pairsRange (n : Nat) (keep : Nat → Nat → Bool) : List (Nat × Nat) :=
  (List.range n).flatMap fun i =>
    (List.range n).flatMap fun j =>
      if i ≠ j && keep i j then [(i, j)] else []

theorem mem_pairsRange {n : Nat} {keep : Nat → Nat → Bool} {i j : Nat} :
    (i, j) ∈ pairsRange n keep ↔ i < n ∧ j < n ∧ i ≠ j ∧ keep i j = true := by
  simp only [pairsRange, List.mem_flatMap, List.mem_range]
  constructor
  · rintro ⟨a, ha, b, hb, hmem⟩
    simp only [ne_eq, Bool.and_eq_true, decide_eq_true_eq, List.mem_ite_nil_right,
      List.mem_singleton, Prod.mk.injEq] at hmem
    obtain ⟨⟨hne, hk⟩, rfl, rfl⟩ := hmem
    exact ⟨ha, hb, hne, hk⟩
  · rintro ⟨hi, hj, hne, hkeep⟩
    exact ⟨i, hi, j, hj, by simp [hne, hkeep]⟩

/-- The list `certain_with_separation_pairs` (set W) built by the model
builders. -/
def certain_with_separation_pairs (ps : List Plane) (sep : List (List Int)) :
    List (Nat × Nat) :=
  pairsRange ps.length fun i j =>
    pairInW (planeAt ps i).latest_landing_time
      (planeAt ps j).earliest_landing_time (sepAt sep i j)

/-- The list `certain_with_no_separation_pairs` (set V) built by the model
builders. -/
def certain_with_no_separation_pairs (ps : List Plane) (sep : List (List Int)) :
    List (Nat × Nat) :=
  pairsRange ps.length fun i j =>
    pairInV (planeAt ps i).latest_landing_time
      (planeAt ps j).earliest_landing_time (sepAt sep i j)

/-- The list `uncertain_pairs` (set U) built by the model builders; it does
not depend on the separation matrix. -/
def uncertain_pairs (ps : List Plane) : List (Nat × Nat) :=
  pairsRange ps.length fun i j =>
    pairInU (planeAt ps i).earliest_landing_time
      (planeAt ps i).latest_landing_time
      (planeAt ps j).earliest_landing_time
      (planeAt ps j).latest_landing_time

theorem planeAt_mem {ps : List Plane} {i : Nat} (h : i < ps.length) :
    planeAt ps i ∈ ps := by
  unfold planeAt
  rw [List.getD_eq_getElem ps _ h]
  exact List.getElem_mem h

theorem wellFormed_iff (ps : List Plane) :
    wellFormed ps ↔ (ps.all fun p =>
      decide (p.earliest_landing_time ≤ p.target_landing_time) &&
      decide (p.target_landing_time ≤ p.latest_landing_time)) = true := by
  simp [wellFormed, List.all_eq_true]

/-- A well-formed two-plane instance whose windows are disjoint, plane 0
landing certainly before plane 1. -/
def disjointPlanes : List Plane :=
  [⟨0, 0, 3, 5, 1, 1⟩, ⟨0, 20, 25, 30, 1, 1⟩]

/-- Separation matrix for `disjointPlanes`. -/
def disjointSep : List (List Int) := [[0, 1], [1, 0]]

/-- Decision variables of the embedded models, one constructor per variable
family created by the builders (MIP families first, CP-only families after). -/
inductive Var
  | landingTime (i : Nat)
  | landingOrder (i j : Nat)
  | earlyDeviation (i : Nat)
  | lateDeviation (i : Nat)
  | sameRunway (i j : Nat)
  | landingRunway (i r : Nat)
  | position (i : Nat)
  | runway (i : Nat)
  | iBeforeJ (i j : Nat)
deriving DecidableEq

/-- Linear integer-coefficient expressions over the decision variables, as
written in the Python constraint posts. -/
inductive Expr
  | const (c : Int)
  | var (v : Var)
  | add (a b : Expr)
  | sub (a b : Expr)
  | smul (c : Int) (e : Expr)
deriving DecidableEq

instance : Add Expr := ⟨Expr.add⟩

instance : Sub Expr := ⟨Expr.sub⟩

instance : HMul Int Expr Expr := ⟨Expr.smul⟩

/-- Value of an expression under an assignment of rationals to variables
(rationals cover both the relaxed continuous variables and the CP integer
variables). -/
def Expr.eval (ν : Var → Rat) : Expr → Rat
  | .const c => (c : Rat)
  | .var v => ν v
  | .add a b => a.eval ν + b.eval ν
  | .sub a b => a.eval ν - b.eval ν
  | .smul c e => (c : Rat) * e.eval ν

/-- Comparison operators appearing in posted constraints. -/
inductive Rel
  | le
  | ge
  | eq
  | lt
  | ne
deriving DecidableEq

/-- Truth of `a r b` over the rationals. -/
def Rel.holds : Rel → Rat → Rat → Bool
  | .le, a, b => decide (a ≤ b)
  | .ge, a, b => decide (b ≤ a)
  | .eq, a, b => decide (a = b)
  | .lt, a, b => decide (a < b)
  | .ne, a, b => decide (¬a = b)

/-- An `OnlyEnforceIf` literal: the guard holds when the boolean variable
takes value 1 (`expect = true`) or 0 (`expect = false`, i.e. `.Not()`). -/
structure Guard where
  var : Var
  expect : Bool
deriving DecidableEq

/-- Whether a guard literal is active under an assignment. -/
def Guard.active (ν : Var → Rat) (g : Guard) : Bool :=
  decide (ν g.var = (if g.expect then 1 else 0))

/-- All-different check on a list of values. -/
def pairwiseNe : List Rat → Bool
  | [] => true
  | x :: xs => xs.all (fun y => decide (¬x = y)) && pairwiseNe xs

/-- A posted constraint: either a (possibly guarded) linear comparison, or an
`AddAllDifferent` over a list of variables. -/
inductive Cons
  | lin (guards : List Guard) (lhs : Expr) (rel : Rel) (rhs : Expr)
  | allDiff (vs : List Var)
deriving DecidableEq

/-- Satisfaction of a constraint: a guarded linear comparison is vacuous
unless every guard literal is active. -/
def Cons.sat (ν : Var → Rat) : Cons → Bool
  | .lin gs l r rh => !(gs.all (Guard.active ν)) || Rel.holds r (l.eval ν) (rh.eval ν)
  | .allDiff vs => pairwiseNe (vs.map ν)

/-- A variable together with its creation-time lower and upper bound. -/
abbrev Bound := Var × Int × Int

/-- Whether an assignment respects a variable's domain bounds. -/
def boundSat (ν : Var → Rat) (b : Bound) : Bool :=
  decide ((b.2.1 : Rat) ≤ ν b.1) && decide (ν b.1 ≤ (b.2.2 : Rat))

/-- Whether a CP boolean variable takes an integral boolean value. -/
def boolSat (ν : Var → Rat) (v : Var) : Bool :=
  decide (ν v = 0) || decide (ν v = 1)

/-- An embedded model: variable bounds, the variables created as CP-SAT
booleans (empty for the relaxed MIP models), and the posted constraints in
source order. -/
structure Model where
  bounds : List Bound
  boolVars : List Var
  cons : List Cons

/-- A solution the backend may return for a model: all domain bounds hold,
boolean variables are integral, and every posted constraint is satisfied. -/
def Model.feasible (m : Model) (ν : Var → Rat) : Bool :=
  m.bounds.all (boundSat ν) && m.boolVars.all (boolSat ν) && m.cons.all (Cons.sat ν)

/-- View of an integer-valued assignment as a rational assignment. Every
CP-SAT solution, and every concrete assignment used below, is
integer-valued; this wrapper lets those be evaluated by kernel reduction
(rational arithmetic does not reduce definitionally). -/
def intAsgn (f : Var → Int) : Var → Rat := fun v => (f v : Rat)

/-- Integer evaluation of an expression. -/
def Expr.evalInt (f : Var → Int) : Expr → Int
  | .const c => c
  | .var v => f v
  | .add a b => a.evalInt f + b.evalInt f
  | .sub a b => a.evalInt f - b.evalInt f
  | .smul c e => c * e.evalInt f

/-- Integer counterpart of `Rel.holds`. -/
def Rel.holdsInt : Rel → Int → Int → Bool
  | .le, a, b => decide (a ≤ b)
  | .ge, a, b => decide (b ≤ a)
  | .eq, a, b => decide (a = b)
  | .lt, a, b => decide (a < b)
  | .ne, a, b => decide (¬a = b)

/-- Integer counterpart of `Guard.active`. -/
def Guard.activeInt (f : Var → Int) (g : Guard) : Bool :=
  decide (f g.var = (if g.expect then 1 else 0))

/-- Integer counterpart of `pairwiseNe`. -/
def pairwiseNeInt : List Int → Bool
  | [] => true
  | x :: xs => xs.all (fun y => decide (¬x = y)) && pairwiseNeInt xs

/-- Integer counterpart of `Cons.sat`. -/
def Cons.satInt (f : Var → Int) : Cons → Bool
  | .lin gs l r rh =>
    !(gs.all (Guard.activeInt f)) || Rel.holdsInt r (l.evalInt f) (rh.evalInt f)
  | .allDiff vs => pairwiseNeInt (vs.map f)

/-- Integer counterpart of `boundSat`. -/
def boundSatInt (f : Var → Int) (b : Bound) : Bool :=
  decide (b.2.1 ≤ f b.1) && decide (f b.1 ≤ b.2.2)

/-- Integer counterpart of `boolSat`. -/
def boolSatInt (f : Var → Int) (v : Var) : Bool :=
  decide (f v = 0) || decide (f v = 1)

/-- Integer counterpart of `Model.feasible`. -/
def Model.feasibleInt (m : Model) (f : Var → Int) : Bool :=
  m.bounds.all (boundSatInt f) && m.boolVars.all (boolSatInt f) &&
    m.cons.all (Cons.satInt f)

theorem evalInt_cast (f : Var → Int) (e : Expr) :
    e.eval (intAsgn f) = ((e.evalInt f : Int) : Rat) := by
  induction e with
  | const c => simp [Expr.eval, Expr.evalInt]
  | var v => simp [Expr.eval, Expr.evalInt, intAsgn]
  | add a b iha ihb => simp [Expr.eval, Expr.evalInt, iha, ihb]
  | sub a b iha ihb => simp [Expr.eval, Expr.evalInt, iha, ihb]
  | smul c e ih => simp [Expr.eval, Expr.evalInt, ih]

theorem holdsInt_cast (r : Rel) (a b : Int) :
    Rel.holds r (a : Rat) (b : Rat) = Rel.holdsInt r a b := by
  cases r <;> simp [Rel.holds, Rel.holdsInt, decide_eq_decide] <;> exact_mod_cast Iff.rfl

theorem activeInt_cast (f : Var → Int) (g : Guard) :
    Guard.active (intAsgn f) g = Guard.activeInt f g := by
  rcases g with ⟨v, e⟩
  cases e <;> simp [Guard.active, Guard.activeInt, intAsgn, decide_eq_decide] <;>
    exact_mod_cast Iff.rfl

theorem all_map_fun {α β : Type} (l : List α) (f : α → β) (p : β → Bool) :
    (l.map f).all p = l.all (fun a => p (f a)) := by
  induction l <;> simp_all

theorem pairwiseNeInt_cast (f : Var → Int) (vs : List Var) :
    pairwiseNe (vs.map (intAsgn f)) = pairwiseNeInt (vs.map f) := by
  induction vs with
  | nil => rfl
  | cons v vs ih =>
    simp only [List.map_cons, pairwiseNe, pairwiseNeInt, ih]
    congr 1
    rw [all_map_fun, all_map_fun]
    congr 1
    funext y
    simp [intAsgn, decide_eq_decide]

theorem satInt_cast (f : Var → Int) (c : Cons) :
    Cons.sat (intAsgn f) c = Cons.satInt f c := by
  cases c with
  | lin gs l r rh =>
    simp only [Cons.sat, Cons.satInt, funext (activeInt_cast f), evalInt_cast,
      holdsInt_cast]
  | allDiff vs => simpa [Cons.sat, Cons.satInt] using pairwiseNeInt_cast f vs

theorem boundSatInt_cast (f : Var → Int) (b : Bound) :
    boundSat (intAsgn f) b = boundSatInt f b := by
  simp [boundSat, boundSatInt, intAsgn, decide_eq_decide]

theorem boolSatInt_cast (f : Var → Int) (v : Var) :
    boolSat (intAsgn f) v = boolSatInt f v := by
  simp [boolSat, boolSatInt, intAsgn, decide_eq_decide]

theorem feasibleInt_cast (m : Model) (f : Var → Int) :
    m.feasible (intAsgn f) = m.feasibleInt f := by
  unfold Model.feasible Model.feasibleInt
  rw [funext (satInt_cast f), funext (boundSatInt_cast f), funext (boolSatInt_cast f)]

/-- The ordered pairs `i < j` visited by the loops
`for i in range(n): for j in range(i+1, n)`. -/
def pairsUpper (n : Nat) : List (Nat × Nat) :=
  pairsRange n fun i j => decide (i < j)

/-- Bounds of the variables `LandingTime_i = NumVar(E_i, L_i)` (identical in
every builder; the CP builders use `NewIntVar(0, 10_000_000)` instead, see
`cpTimeBounds`). -/
def landingTimeBounds (ps : List Plane) : List Bound :=
  (List.range ps.length).map fun i =>
    (Var.landingTime i, (planeAt ps i).earliest_landing_time,
      (planeAt ps i).latest_landing_time)

/-- Bounds of the relaxed order variables `LandingOrder_i_j = NumVar(0, 1)`
for every ordered pair `i ≠ j`. -/
def landingOrderBounds (n : Nat) : List Bound :=
  (pairsRange n fun _ _ => true).map fun p => (Var.landingOrder p.1 p.2, 0, 1)

/-- Bounds of `EarlyDeviation_i`: lower 0, upper `max(target_i − earliest_i, 0)`
— the clamp the builders apply verbatim. -/
def earlyDeviationBounds (ps : List Plane) : List Bound :=
  (List.range ps.length).map fun i =>
    (Var.earlyDeviation i, 0,
      max ((planeAt ps i).target_landing_time - (planeAt ps i).earliest_landing_time) 0)

/-- Bounds of `LateDeviation_i`: lower 0, upper `max(latest_i − target_i, 0)`. -/
def lateDeviationBounds (ps : List Plane) : List Bound :=
  (List.range ps.length).map fun i =>
    (Var.lateDeviation i, 0,
      max ((planeAt ps i).latest_landing_time - (planeAt ps i).target_landing_time) 0)

/-- Bounds of `SameRunway_i_j = NumVar(0, 1)` for every ordered pair `i ≠ j`. -/
def sameRunwayBounds (n : Nat) : List Bound :=
  (pairsRange n fun _ _ => true).map fun p => (Var.sameRunway p.1 p.2, 0, 1)

/-- Bounds of `LandingRunway_i_r = NumVar(0, 1)`. -/
def landingRunwayBounds (n R : Nat) : List Bound :=
  (List.range n).flatMap fun i =>
    (List.range R).map fun r => (Var.landingRunway i r, 0, 1)

/-- Constraint (2): `landing_order[(i,j)] + landing_order[(j,i)] == 1` for
every pair `i < j`. -/
def orderTotalityCons (n : Nat) : List Cons :=
  (pairsUpper n).map fun p =>
    Cons.lin [] (Expr.var (Var.landingOrder p.1 p.2) + Expr.var (Var.landingOrder p.2 p.1))
      .eq (Expr.const 1)

/-- Set-W constraint (6): `landing_order[(i,j)] == 1`. -/
def wCon (i j : Nat) : Cons :=
  Cons.lin [] (Expr.var (Var.landingOrder i j)) .eq (Expr.const 1)

/-- The set-W section of every MIP builder. -/
def wConsOf (ps : List Plane) (sep : List (List Int)) : List Cons :=
  (certain_with_separation_pairs ps sep).map fun p => wCon p.1 p.2

/-- Set-V section of the single-runway MIP builder: order fixed and
`landing_times[j] >= landing_times[i] + separation_times[i][j]`. -/
def vConsSingle (ps : List Plane) (sep : List (List Int)) : List Cons :=
  (certain_with_no_separation_pairs ps sep).flatMap fun p =>
    [wCon p.1 p.2,
     Cons.lin [] (Expr.var (Var.landingTime p.2)) .ge
       (Expr.var (Var.landingTime p.1) + Expr.const (sepAt sep p.1 p.2))]

/-- Set-V section of the multi-runway MIP builder (7): the separation term is
conditioned on `same_runway`. -/
def vConsMulti (ps : List Plane) (sep : List (List Int)) : List Cons :=
  (certain_with_no_separation_pairs ps sep).flatMap fun p =>
    [wCon p.1 p.2,
     Cons.lin [] (Expr.var (Var.landingTime p.2)) .ge
       (Expr.var (Var.landingTime p.1) +
         sepAt sep p.1 p.2 * Expr.var (Var.sameRunway p.1 p.2))]

/-- The big-M constraint (11) posted for an uncertain pair by the
single-runway MIP builder:
`landing_times[j] >= landing_times[i] + sep_ij·delta_ij − (latest_i − earliest_j)·delta_ji`. -/
def uConSingle (ps : List Plane) (sep : List (List Int)) (i j : Nat) : Cons :=
  Cons.lin [] (Expr.var (Var.landingTime j)) .ge
    (Expr.var (Var.landingTime i) +
      sepAt sep i j * Expr.var (Var.landingOrder i j) -
      ((planeAt ps i).latest_landing_time - (planeAt ps j).earliest_landing_time) *
        Expr.var (Var.landingOrder j i))

/-- The set-U section of the single-runway MIP builder. -/
def uConsSingle (ps : List Plane) (sep : List (List Int)) : List Cons :=
  (uncertain_pairs ps).map fun p => uConSingle ps sep p.1 p.2

/-- The big-M constraint (8) posted for an uncertain pair by the multi-runway
MIP builder:
`landing_times[j] >= landing_times[i] + sep_ij·same_runway_ij − (latest_i + sep_ij − earliest_j)·delta_ji`. -/
def uConMulti (ps : List Plane) (sep : List (List Int)) (i j : Nat) : Cons :=
  Cons.lin [] (Expr.var (Var.landingTime j)) .ge
    (Expr.var (Var.landingTime i) +
      sepAt sep i j * Expr.var (Var.sameRunway i j) -
      ((planeAt ps i).latest_landing_time + sepAt sep i j -
          (planeAt ps j).earliest_landing_time) *
        Expr.var (Var.landingOrder j i))

/-- The set-U section of the multi-runway MIP builder. -/
def uConsMulti (ps : List Plane) (sep : List (List Int)) : List Cons :=
  (uncertain_pairs ps).map fun p => uConMulti ps sep p.1 p.2

/-- The deviation-linking constraints (14)–(18) posted for aircraft `i` by
both MIP builders, in source order; (18) is the exact decomposition
`landing_times[i] == target_i − early_deviation[i] + late_deviation[i]`. -/
def devConsFor (ps : List Plane) (i : Nat) : List Cons :=
  [Cons.lin [] (Expr.var (Var.earlyDeviation i)) .ge
      (Expr.const (planeAt ps i).target_landing_time - Expr.var (Var.landingTime i)),
   Cons.lin [] (Expr.var (Var.earlyDeviation i)) .ge (Expr.const 0),
   Cons.lin [] (Expr.var (Var.earlyDeviation i)) .le
      (Expr.const ((planeAt ps i).target_landing_time -
        (planeAt ps i).earliest_landing_time)),
   Cons.lin [] (Expr.var (Var.lateDeviation i)) .ge
      (Expr.var (Var.landingTime i) - Expr.const (planeAt ps i).target_landing_time),
   Cons.lin [] (Expr.var (Var.lateDeviation i)) .ge (Expr.const 0),
   Cons.lin [] (Expr.var (Var.lateDeviation i)) .le
      (Expr.const ((planeAt ps i).latest_landing_time -
        (planeAt ps i).target_landing_time)),
   Cons.lin [] (Expr.var (Var.landingTime i)) .eq
      (Expr.const (planeAt ps i).target_landing_time -
        Expr.var (Var.earlyDeviation i) + Expr.var (Var.lateDeviation i))]

/-- The deviation section of both MIP builders. -/
def devCons (ps : List Plane) : List Cons :=
  (List.range ps.length).flatMap (devConsFor ps)

/-- Sum of a list of expressions, as built by `solver.Sum`. -/
def sumE (l : List Expr) : Expr := l.foldr Expr.add (Expr.const 0)

/-- Constraint (28): each plane lands on exactly one runway. -/
def runwayAssignCons (n R : Nat) : List Cons :=
  (List.range n).map fun i =>
    Cons.lin [] (sumE ((List.range R).map fun r => Expr.var (Var.landingRunway i r)))
      .eq (Expr.const 1)

/-- Constraint (29): `same_runway` symmetry for `i < j`. -/
def sameRunwaySymCons (n : Nat) : List Cons :=
  (pairsUpper n).map fun p =>
    Cons.lin [] (Expr.var (Var.sameRunway p.1 p.2)) .eq
      (Expr.var (Var.sameRunway p.2 p.1))

/-- Constraint (30): `same_runway[(i,j)] >= landing_runway[(i,r)] +
landing_runway[(j,r)] − 1`; only a lower bound on `same_runway`. -/
def sameRunwayLbCons (n R : Nat) : List Cons :=
  (pairsUpper n).flatMap fun p =>
    (List.range R).map fun r =>
      Cons.lin [] (Expr.var (Var.sameRunway p.1 p.2)) .ge
        (Expr.var (Var.landingRunway p.1 r) + Expr.var (Var.landingRunway p.2 r) -
          Expr.const 1)

/-- The single-runway relaxed MIP model of `create_mip_model_single_runway`:
variable bounds and constraints in source order. -/
def create_mip_model_single_runway (ps : List Plane) (sep : List (List Int)) : Model where
  bounds := landingTimeBounds ps ++ landingOrderBounds ps.length ++
    earlyDeviationBounds ps ++ lateDeviationBounds ps
  boolVars := []
  cons := orderTotalityCons ps.length ++ vConsSingle ps sep ++ wConsOf ps sep ++
    uConsSingle ps sep ++ devCons ps

/-- The multi-runway relaxed MIP model of `create_mip_model_multiple_runways`. -/
def create_mip_model_multiple_runways (ps : List Plane) (sep : List (List Int))
    (R : Nat) : Model where
  bounds := landingTimeBounds ps ++ landingOrderBounds ps.length ++
    earlyDeviationBounds ps ++ lateDeviationBounds ps ++ sameRunwayBounds ps.length ++
    landingRunwayBounds ps.length R
  boolVars := []
  cons := orderTotalityCons ps.length ++ vConsMulti ps sep ++ wConsOf ps sep ++
    uConsMulti ps sep ++ devCons ps ++ runwayAssignCons ps.length R ++
    sameRunwaySymCons ps.length ++ sameRunwayLbCons ps.length R

/-- Bounds of the CP landing-time variables `NewIntVar(0, 10_000_000)`. -/
def cpTimeBounds (n : Nat) : List Bound :=
  (List.range n).map fun i => (Var.landingTime i, 0, 10000000)

/-- Bounds of the CP `position` variables `NewIntVar(0, num_planes − 1)`. -/
def positionBounds (n : Nat) : List Bound :=
  (List.range n).map fun i => (Var.position i, 0, (n : Int) - 1)

/-- Bounds of the CP `runway` variables `NewIntVar(0, num_runways − 1)`. -/
def runwayBounds (n R : Nat) : List Bound :=
  (List.range n).map fun i => (Var.runway i, 0, (R : Int) - 1)

/-- The two time-window constraints posted per aircraft by the CP builders. -/
def windowConsFor (ps : List Plane) (i : Nat) : List Cons :=
  [Cons.lin [] (Expr.var (Var.landingTime i)) .ge
      (Expr.const (planeAt ps i).earliest_landing_time),
   Cons.lin [] (Expr.var (Var.landingTime i)) .le
      (Expr.const (planeAt ps i).latest_landing_time)]

/-- The four deviation constraints posted per aircraft by the CP builders:
only the lower-bound inequalities, never the exact decomposition (18). -/
def cpDevConsFor (ps : List Plane) (i : Nat) : List Cons :=
  [Cons.lin [] (Expr.var (Var.earlyDeviation i)) .ge
      (Expr.const (planeAt ps i).target_landing_time - Expr.var (Var.landingTime i)),
   Cons.lin [] (Expr.var (Var.earlyDeviation i)) .ge (Expr.const 0),
   Cons.lin [] (Expr.var (Var.lateDeviation i)) .ge
      (Expr.var (Var.landingTime i) - Expr.const (planeAt ps i).target_landing_time),
   Cons.lin [] (Expr.var (Var.lateDeviation i)) .ge (Expr.const 0)]

/-- Reified `position[i] < position[j]` when `iBeforeJ[i][j]`. -/
def cpPosConIJ (i j : Nat) : Cons :=
  Cons.lin [⟨Var.iBeforeJ i j, true⟩] (Expr.var (Var.position i)) .lt
    (Expr.var (Var.position j))

/-- Reified `position[i] >= position[j]` when `iBeforeJ[i][j].Not()`. -/
def cpPosConJI (i j : Nat) : Cons :=
  Cons.lin [⟨Var.iBeforeJ i j, false⟩] (Expr.var (Var.position i)) .ge
    (Expr.var (Var.position j))

/-- The single-runway reified separation constraint for direction `i` before
`j`: `landing_time[j] >= landing_time[i] + separation_times[i][j]`, enforced
only when `iBeforeJ[i][j]`. -/
def cpSepConIJ (sep : List (List Int)) (i j : Nat) : Cons :=
  Cons.lin [⟨Var.iBeforeJ i j, true⟩] (Expr.var (Var.landingTime j)) .ge
    (Expr.var (Var.landingTime i) + Expr.const (sepAt sep i j))

/-- The single-runway reified separation constraint for direction `j` before
`i`, enforced only when `iBeforeJ[i][j].Not()`. -/
def cpSepConJI (sep : List (List Int)) (i j : Nat) : Cons :=
  Cons.lin [⟨Var.iBeforeJ i j, false⟩] (Expr.var (Var.landingTime i)) .ge
    (Expr.var (Var.landingTime j) + Expr.const (sepAt sep j i))

/-- The four constraints posted per pair `i < j` by the single-runway CP
builder, in source order. -/
def cpPairConsSingle (sep : List (List Int)) (p : Nat × Nat) : List Cons :=
  [cpPosConIJ p.1 p.2, cpPosConJI p.1 p.2,
   cpSepConIJ sep p.1 p.2, cpSepConJI sep p.1 p.2]

/-- The exact single-runway CP model of `create_cp_model_single_runway`. -/
def create_cp_model_single_runway (ps : List Plane) (sep : List (List Int)) : Model where
  bounds := positionBounds ps.length ++ cpTimeBounds ps.length ++
    earlyDeviationBounds ps ++ lateDeviationBounds ps
  boolVars := (pairsUpper ps.length).map fun p => Var.iBeforeJ p.1 p.2
  cons := Cons.allDiff ((List.range ps.length).map Var.position) ::
    ((List.range ps.length).flatMap (windowConsFor ps) ++
      (List.range ps.length).flatMap (cpDevConsFor ps) ++
      (pairsUpper ps.length).flatMap (cpPairConsSingle sep))

/-- Reified `runway[i] == runway[j]` when `same_runway[i][j]`. -/
def cpRunwayEqCon (i j : Nat) : Cons :=
  Cons.lin [⟨Var.sameRunway i j, true⟩] (Expr.var (Var.runway i)) .eq
    (Expr.var (Var.runway j))

/-- Reified `runway[i] != runway[j]` when `same_runway[i][j].Not()`. -/
def cpRunwayNeCon (i j : Nat) : Cons :=
  Cons.lin [⟨Var.sameRunway i j, false⟩] (Expr.var (Var.runway i)) .ne
    (Expr.var (Var.runway j))

/-- The multi-runway reified separation constraint, direction `i` before `j`,
enforced only when both `iBeforeJ[i][j]` and `same_runway[i][j]` hold. -/
def cpSepMultiConIJ (sep : List (List Int)) (i j : Nat) : Cons :=
  Cons.lin [⟨Var.iBeforeJ i j, true⟩, ⟨Var.sameRunway i j, true⟩]
    (Expr.var (Var.landingTime j)) .ge
    (Expr.var (Var.landingTime i) + Expr.const (sepAt sep i j))

/-- The multi-runway reified separation constraint, direction `j` before `i`. -/
def cpSepMultiConJI (sep : List (List Int)) (i j : Nat) : Cons :=
  Cons.lin [⟨Var.iBeforeJ i j, false⟩, ⟨Var.sameRunway i j, true⟩]
    (Expr.var (Var.landingTime i)) .ge
    (Expr.var (Var.landingTime j) + Expr.const (sepAt sep j i))

/-- The six per-aircraft constraints of the multi-runway CP builder (window
bounds and the four deviation inequalities, posted in one loop). -/
def cpPlaneConsMulti (ps : List Plane) (i : Nat) : List Cons :=
  windowConsFor ps i ++ cpDevConsFor ps i

/-- The six constraints posted per pair `i < j` by the multi-runway CP
builder, in source order. -/
def cpPairConsMulti (sep : List (List Int)) (p : Nat × Nat) : List Cons :=
  [cpPosConIJ p.1 p.2, cpPosConJI p.1 p.2,
   cpRunwayEqCon p.1 p.2, cpRunwayNeCon p.1 p.2,
   cpSepMultiConIJ sep p.1 p.2, cpSepMultiConJI sep p.1 p.2]

/-- The exact multi-runway CP model of `create_cp_model_multiple_runways`. -/
def create_cp_model_multiple_runways (ps : List Plane) (R : Nat)
    (sep : List (List Int)) : Model where
  bounds := positionBounds ps.length ++ cpTimeBounds ps.length ++
    earlyDeviationBounds ps ++ lateDeviationBounds ps ++ runwayBounds ps.length R
  boolVars := (pairsUpper ps.length).flatMap fun p =>
    [Var.iBeforeJ p.1 p.2, Var.sameRunway p.1 p.2]
  cons := Cons.allDiff ((List.range ps.length).map Var.position) ::
    ((List.range ps.length).flatMap (cpPlaneConsMulti ps) ++
      (pairsUpper ps.length).flatMap (cpPairConsMulti sep))

theorem mem_pairsUpper {n i j : Nat} :
    (i, j) ∈ pairsUpper n ↔ i < n ∧ j < n ∧ i < j := by
  rw [pairsUpper, mem_pairsRange]
  constructor
  · rintro ⟨h1, h2, -, h4⟩
    exact ⟨h1, h2, by simpa using h4⟩
  · rintro ⟨h1, h2, h4⟩
    exact ⟨h1, h2, Nat.ne_of_lt h4, by simp [h4]⟩

theorem feasible_cons {m : Model} {ν : Var → Rat} {c : Cons}
    (hf : m.feasible ν = true) (hc : c ∈ m.cons) : c.sat ν = true := by
  simp only [Model.feasible, Bool.and_eq_true, List.all_eq_true] at hf
  exact hf.2 c hc

theorem feasible_bound {m : Model} {ν : Var → Rat} {v : Var} {lo hi : Int}
    (hf : m.feasible ν = true) (hb : (v, lo, hi) ∈ m.bounds) :
    (lo : Rat) ≤ ν v ∧ ν v ≤ (hi : Rat) := by
  simp only [Model.feasible, Bool.and_eq_true, List.all_eq_true] at hf
  have := hf.1.1 _ hb
  simpa [boundSat] using this

theorem feasible_bool {m : Model} {ν : Var → Rat} {v : Var}
    (hf : m.feasible ν = true) (hv : v ∈ m.boolVars) : ν v = 0 ∨ ν v = 1 := by
  simp only [Model.feasible, Bool.and_eq_true, List.all_eq_true] at hf
  have := hf.1.2 v hv
  simpa [boolSat] using this

theorem sat_lin_nil_iff {ν : Var → Rat} {l rh : Expr} {r : Rel} :
    (Cons.lin [] l r rh).sat ν = true ↔ Rel.holds r (l.eval ν) (rh.eval ν) = true := by
  simp [Cons.sat]

theorem holds_ge_iff {a b : Rat} : Rel.holds .ge a b = true ↔ b ≤ a := by
  simp [Rel.holds]

theorem holds_le_iff {a b : Rat} : Rel.holds .le a b = true ↔ a ≤ b := by
  simp [Rel.holds]

theorem holds_eq_iff {a b : Rat} : Rel.holds .eq a b = true ↔ a = b := by
  simp [Rel.holds]

theorem holds_lt_iff {a b : Rat} : Rel.holds .lt a b = true ↔ a < b := by
  simp [Rel.holds]

theorem holds_ne_iff {a b : Rat} : Rel.holds .ne a b = true ↔ ¬a = b := by
  simp [Rel.holds]

theorem eval_add (ν : Var → Rat) (a b : Expr) :
    (a + b : Expr).eval ν = a.eval ν + b.eval ν := rfl

theorem eval_sub (ν : Var → Rat) (a b : Expr) :
    (a - b : Expr).eval ν = a.eval ν - b.eval ν := rfl

theorem eval_smul (ν : Var → Rat) (c : Int) (e : Expr) :
    (c * e : Expr).eval ν = (c : Rat) * e.eval ν := rfl

theorem eval_const (ν : Var → Rat) (c : Int) : (Expr.const c).eval ν = (c : Rat) := rfl

theorem eval_var (ν : Var → Rat) (v : Var) : (Expr.var v).eval ν = ν v := rfl

theorem sat_lin_iff {ν : Var → Rat} {gs : List Guard} {l rh : Expr} {r : Rel} :
    (Cons.lin gs l r rh).sat ν = true ↔
      (gs.all (Guard.active ν) = true → Rel.holds r (l.eval ν) (rh.eval ν) = true) := by
  cases h : gs.all (Guard.active ν) <;> simp [Cons.sat, h]

theorem guard_true_active {ν : Var → Rat} {v : Var} :
    Guard.active ν ⟨v, true⟩ = true ↔ ν v = 1 := by
  simp [Guard.active]

theorem guard_false_active {ν : Var → Rat} {v : Var} :
    Guard.active ν ⟨v, false⟩ = true ↔ ν v = 0 := by
  simp [Guard.active]

theorem uConSingle_mem {ps : List Plane} {sep : List (List Int)} {i j : Nat}
    (h : (i, j) ∈ uncertain_pairs ps) :
    uConSingle ps sep i j ∈ (create_mip_model_single_runway ps sep).cons := by
  simp only [create_mip_model_single_runway, List.mem_append]
  exact Or.inl (Or.inr (List.mem_map.mpr ⟨(i, j), h, rfl⟩))

theorem uConMulti_mem {ps : List Plane} {sep : List (List Int)} {R : Nat} {i j : Nat}
    (h : (i, j) ∈ uncertain_pairs ps) :
    uConMulti ps sep i j ∈ (create_mip_model_multiple_runways ps sep R).cons := by
  simp only [create_mip_model_multiple_runways, List.mem_append]
  exact Or.inl (Or.inl (Or.inl (Or.inl (Or.inr (List.mem_map.mpr ⟨(i, j), h, rfl⟩)))))

theorem devConsFor_mem_single {ps : List Plane} {sep : List (List Int)} {i : Nat}
    {c : Cons} (hi : i < ps.length) (hc : c ∈ devConsFor ps i) :
    c ∈ (create_mip_model_single_runway ps sep).cons := by
  simp only [create_mip_model_single_runway, List.mem_append]
  exact Or.inr (List.mem_flatMap.mpr ⟨i, List.mem_range.mpr hi, hc⟩)

theorem devConsFor_mem_multi {ps : List Plane} {sep : List (List Int)} {R : Nat}
    {i : Nat} {c : Cons} (hi : i < ps.length) (hc : c ∈ devConsFor ps i) :
    c ∈ (create_mip_model_multiple_runways ps sep R).cons := by
  simp only [create_mip_model_multiple_runways, List.mem_append]
  exact Or.inl (Or.inl (Or.inl (Or.inr (List.mem_flatMap.mpr
    ⟨i, List.mem_range.mpr hi, hc⟩))))

theorem cpDevConsFor_mem_single {ps : List Plane} {sep : List (List Int)} {i : Nat}
    {c : Cons} (hi : i < ps.length) (hc : c ∈ cpDevConsFor ps i) :
    c ∈ (create_cp_model_single_runway ps sep).cons := by
  simp only [create_cp_model_single_runway, List.mem_cons, List.mem_append]
  exact Or.inr (Or.inl (Or.inr (List.mem_flatMap.mpr ⟨i, List.mem_range.mpr hi, hc⟩)))

theorem cpDevConsFor_mem_multi {ps : List Plane} {sep : List (List Int)} {R : Nat}
    {i : Nat} {c : Cons} (hi : i < ps.length) (hc : c ∈ cpDevConsFor ps i) :
    c ∈ (create_cp_model_multiple_runways ps R sep).cons := by
  simp only [create_cp_model_multiple_runways, List.mem_cons, List.mem_append]
  refine Or.inr (Or.inl (List.mem_flatMap.mpr ⟨i, List.mem_range.mpr hi, ?_⟩))
  simp only [cpPlaneConsMulti, List.mem_append]
  exact Or.inr hc

theorem cpPairConsMulti_mem {ps : List Plane} {sep : List (List Int)} {R : Nat}
    {i j : Nat} {c : Cons} (hij : (i, j) ∈ pairsUpper ps.length)
    (hc : c ∈ cpPairConsMulti sep (i, j)) :
    c ∈ (create_cp_model_multiple_runways ps R sep).cons := by
  simp only [create_cp_model_multiple_runways, List.mem_cons, List.mem_append]
  exact Or.inr (Or.inr (List.mem_flatMap.mpr ⟨(i, j), hij, hc⟩))

/-- A two-plane instance with identical fully-overlapping windows, so both
ordered pairs are uncertain. -/
def overlapPlanes : List Plane :=
  [⟨0, 0, 5, 10, 1, 1⟩, ⟨0, 0, 5, 10, 1, 1⟩]

/-- Separation matrix for `overlapPlanes`. -/
def overlapSep : List (List Int) := [[0, 3], [3, 0]]

/-- Concrete assignment used to exercise the vacuous branch of the
single-runway big-M constraint: plane 1 lands first (`order[1][0] = 1`). -/
def nuVacuous : Var → Rat
  | Var.landingTime 0 => 8
  | Var.landingTime 1 => 2
  | Var.landingOrder 1 0 => 1
  | _ => 0

/-- C3: for every uncertain pair `(i,j)`, the single-runway MIP builder posts
`landingTime_j ≥ landingTime_i + sep_ij·order_ij − (latest_i − earliest_j)·order_ji`,
the slack coefficient `latest_i − earliest_j` bounds every window-feasible
value of `landingTime_i − landingTime_j`, and with `order[j][i] = 1`,
`order[i][j] = 0` the posted inequality holds automatically. -/
theorem claim_C3_single_bigM_vacuous (ps : List Plane) (sep : List (List Int))
    (i j : Nat) (h : (i, j) ∈ uncertain_pairs ps) (ν : Var → Rat)
    (hilo : ((planeAt ps i).earliest_landing_time : Rat) ≤ ν (Var.landingTime i))
    (hihi : ν (Var.landingTime i) ≤ ((planeAt ps i).latest_landing_time : Rat))
    (hjlo : ((planeAt ps j).earliest_landing_time : Rat) ≤ ν (Var.landingTime j))
    (hjhi : ν (Var.landingTime j) ≤ ((planeAt ps j).latest_landing_time : Rat))
    (hji : ν (Var.landingOrder j i) = 1) (hij : ν (Var.landingOrder i j) = 0) :
    uConSingle ps sep i j ∈ (create_mip_model_single_runway ps sep).cons ∧
    ν (Var.landingTime i) - ν (Var.landingTime j) ≤
      ((planeAt ps i).latest_landing_time : Rat) -
        ((planeAt ps j).earliest_landing_time : Rat) ∧
    (uConSingle ps sep i j).sat ν = true := by
  refine ⟨uConSingle_mem h, by linarith, ?_⟩
  rw [uConSingle, sat_lin_iff]
  intro _
  rw [holds_ge_iff]
  simp only [eval_add, eval_sub, eval_smul, eval_const, eval_var, hji, hij]
  push_cast
  linarith

/-- C3, witness: the theorem applied to the uncertain pair `(0,1)` of
`overlapPlanes` under the assignment `nuVacuous` in which plane 1 lands
first. -/
theorem claim_C3_witness :
    uConSingle overlapPlanes overlapSep 0 1 ∈
      (create_mip_model_single_runway overlapPlanes overlapSep).cons ∧
    nuVacuous (Var.landingTime 0) - nuVacuous (Var.landingTime 1) ≤
      ((planeAt overlapPlanes 0).latest_landing_time : Rat) -
        ((planeAt overlapPlanes 1).earliest_landing_time : Rat) ∧
    (uConSingle overlapPlanes overlapSep 0 1).sat nuVacuous = true :=
  claim_C3_single_bigM_vacuous overlapPlanes overlapSep 0 1 (by decide) nuVacuous
    (by norm_num [planeAt, overlapPlanes, nuVacuous])
    (by norm_num [planeAt, overlapPlanes, nuVacuous])
    (by norm_num [planeAt, overlapPlanes, nuVacuous])
    (by norm_num [planeAt, overlapPlanes, nuVacuous])
    (by norm_num [nuVacuous]) (by norm_num [nuVacuous])

/-- C4: for every uncertain pair `(i,j)` and non-negative separation, the
multi-runway MIP builder posts exactly
`landingTime_j ≥ landingTime_i + sep_ij·sameRunway_ij − (latest_i + sep_ij − earliest_j)·order_ji`,
and with `order[j][i] = 1` the inequality holds automatically for every
window-feasible pair of landing times and every `sameRunway_ij ∈ [0,1]`: the
enlarged slack also covers the separation term. -/
theorem claim_C4_multi_bigM_vacuous (ps : List Plane) (sep : List (List Int))
    (R : Nat) (i j : Nat) (h : (i, j) ∈ uncertain_pairs ps)
    (hs : 0 ≤ sepAt sep i j) (ν : Var → Rat)
    (hilo : ((planeAt ps i).earliest_landing_time : Rat) ≤ ν (Var.landingTime i))
    (hihi : ν (Var.landingTime i) ≤ ((planeAt ps i).latest_landing_time : Rat))
    (hjlo : ((planeAt ps j).earliest_landing_time : Rat) ≤ ν (Var.landingTime j))
    (hjhi : ν (Var.landingTime j) ≤ ((planeAt ps j).latest_landing_time : Rat))
    (hji : ν (Var.landingOrder j i) = 1)
    (hz0 : 0 ≤ ν (Var.sameRunway i j)) (hz1 : ν (Var.sameRunway i j) ≤ 1) :
    uConMulti ps sep i j ∈ (create_mip_model_multiple_runways ps sep R).cons ∧
    (uConMulti ps sep i j).sat ν = true := by
  refine ⟨uConMulti_mem h, ?_⟩
  rw [uConMulti, sat_lin_iff]
  intro _
  rw [holds_ge_iff]
  simp only [eval_add, eval_sub, eval_smul, eval_const, eval_var, hji]
  have hzs : (sepAt sep i j : Rat) * ν (Var.sameRunway i j) ≤ (sepAt sep i j : Rat) :=
    mul_le_of_le_one_right (by exact_mod_cast hs) hz1
  push_cast
  push_cast at hzs
  linarith

/-- C4, witness: the theorem applied to the uncertain pair `(0,1)` of
`overlapPlanes` under `nuVacuous` (plane 1 lands first, `sameRunway = 0`). -/
theorem claim_C4_witness :
    uConMulti overlapPlanes overlapSep 0 1 ∈
      (create_mip_model_multiple_runways overlapPlanes overlapSep 2).cons ∧
    (uConMulti overlapPlanes overlapSep 0 1).sat nuVacuous = true :=
  claim_C4_multi_bigM_vacuous overlapPlanes overlapSep 2 0 1 (by decide)
    (by decide) nuVacuous
    (by norm_num [planeAt, overlapPlanes, nuVacuous])
    (by norm_num [planeAt, overlapPlanes, nuVacuous])
    (by norm_num [planeAt, overlapPlanes, nuVacuous])
    (by norm_num [planeAt, overlapPlanes, nuVacuous])
    (by norm_num [nuVacuous]) (by norm_num [nuVacuous]) (by norm_num [nuVacuous])

/-- C2 (amended): with integral indicator values, the single-runway reified
separation constraints of the exact CP realization are satisfied exactly when
the two corresponding big-M constraints of the relaxed MIP realization are;
in the multi-runway case only one direction survives: the big-M constraints
imply the reified ones, while the converse fails (see the counterexample:
the multi-runway big-M constraint also forces `landingTime_j ≥ landingTime_i`
for `order[i][j] = 1` on different runways, which the exact realization does
not). -/
theorem claim_C2_reified_bigM_equiv (ps : List Plane) (sep : List (List Int))
    (i j : Nat) (ν : Var → Rat) (b : Rat) (hb : b = 0 ∨ b = 1)
    (hIJ : ν (Var.landingOrder i j) = b)
    (hJI : ν (Var.landingOrder j i) = 1 - b)
    (hB : ν (Var.iBeforeJ i j) = b)
    (hilo : ((planeAt ps i).earliest_landing_time : Rat) ≤ ν (Var.landingTime i))
    (hihi : ν (Var.landingTime i) ≤ ((planeAt ps i).latest_landing_time : Rat))
    (hjlo : ((planeAt ps j).earliest_landing_time : Rat) ≤ ν (Var.landingTime j))
    (hjhi : ν (Var.landingTime j) ≤ ((planeAt ps j).latest_landing_time : Rat)) :
    (((cpSepConIJ sep i j).sat ν = true ∧ (cpSepConJI sep i j).sat ν = true) ↔
      ((uConSingle ps sep i j).sat ν = true ∧ (uConSingle ps sep j i).sat ν = true)) ∧
    (∀ z : Rat, (z = 0 ∨ z = 1) → ν (Var.sameRunway i j) = z →
      ν (Var.sameRunway j i) = z →
      (uConMulti ps sep i j).sat ν = true → (uConMulti ps sep j i).sat ν = true →
      ((cpSepMultiConIJ sep i j).sat ν = true ∧
        (cpSepMultiConJI sep i j).sat ν = true)) := by
  rcases hb with rfl | rfl
  · have hJI1 : ν (Var.landingOrder j i) = 1 := by rw [hJI]; norm_num
    constructor
    · have e1 : (cpSepConIJ sep i j).sat ν = true := by
        simp [cpSepConIJ, Cons.sat, Guard.active, hB]
      have e2 : (cpSepConJI sep i j).sat ν = true ↔
          ν (Var.landingTime j) + (sepAt sep j i : Rat) ≤ ν (Var.landingTime i) := by
        simp [cpSepConJI, Cons.sat, Guard.active, hB, Rel.holds, eval_add, eval_const,
          eval_var]
      have e3 : (uConSingle ps sep i j).sat ν = true := by
        rw [uConSingle, sat_lin_iff]
        intro _
        rw [holds_ge_iff]
        simp only [eval_add, eval_sub, eval_smul, eval_const, eval_var, hIJ, hJI1]
        push_cast
        linarith
      have e4 : (uConSingle ps sep j i).sat ν = true ↔
          ν (Var.landingTime j) + (sepAt sep j i : Rat) * ν (Var.landingOrder j i) -
            (((planeAt ps j).latest_landing_time -
              (planeAt ps i).earliest_landing_time : Int) : Rat) *
              ν (Var.landingOrder i j) ≤ ν (Var.landingTime i) := by
        rw [uConSingle, sat_lin_iff]
        simp [holds_ge_iff, eval_add, eval_sub, eval_smul, eval_const, eval_var]
      rw [e2, e3, e4]
      constructor
      · rintro ⟨-, h2⟩
        refine ⟨rfl, ?_⟩
        rw [hJI1, hIJ]
        push_cast
        linarith
      · rintro ⟨-, h2⟩
        rw [hJI1, hIJ] at h2
        push_cast at h2
        exact ⟨e1, by linarith⟩
    · intro z hz hzij hzji h1 h2
      refine ⟨by simp [cpSepMultiConIJ, Cons.sat, Guard.active, hB], ?_⟩
      rcases hz with rfl | rfl
      · simp [cpSepMultiConJI, Cons.sat, Guard.active, hzij]
      · rw [cpSepMultiConJI, sat_lin_iff]
        intro _
        rw [holds_ge_iff]
        rw [uConMulti, sat_lin_iff] at h2
        have h2a := h2 (by simp)
        rw [holds_ge_iff] at h2a
        simp only [eval_add, eval_sub, eval_smul, eval_const, eval_var, hIJ, hzji] at h2a ⊢
        push_cast at h2a ⊢
        linarith
  · have hJI0 : ν (Var.landingOrder j i) = 0 := by rw [hJI]; norm_num
    constructor
    · have e1 : (cpSepConJI sep i j).sat ν = true := by
        simp [cpSepConJI, Cons.sat, Guard.active, hB]
      have e2 : (cpSepConIJ sep i j).sat ν = true ↔
          ν (Var.landingTime i) + (sepAt sep i j : Rat) ≤ ν (Var.landingTime j) := by
        simp [cpSepConIJ, Cons.sat, Guard.active, hB, Rel.holds, eval_add, eval_const,
          eval_var]
      have e3 : (uConSingle ps sep j i).sat ν = true := by
        rw [uConSingle, sat_lin_iff]
        intro _
        rw [holds_ge_iff]
        simp only [eval_add, eval_sub, eval_smul, eval_const, eval_var, hIJ, hJI0]
        push_cast
        linarith
      have e4 : (uConSingle ps sep i j).sat ν = true ↔
          ν (Var.landingTime i) + (sepAt sep i j : Rat) * ν (Var.landingOrder i j) -
            (((planeAt ps i).latest_landing_time -
              (planeAt ps j).earliest_landing_time : Int) : Rat) *
              ν (Var.landingOrder j i) ≤ ν (Var.landingTime j) := by
        rw [uConSingle, sat_lin_iff]
        simp [holds_ge_iff, eval_add, eval_sub, eval_smul, eval_const, eval_var]
      rw [e2, e3, e4]
      constructor
      · rintro ⟨h1, -⟩
        refine ⟨?_, rfl⟩
        rw [hJI0, hIJ]
        push_cast
        linarith
      · rintro ⟨h1, -⟩
        rw [hJI0, hIJ] at h1
        push_cast at h1
        exact ⟨by linarith, e1⟩
    · intro z hz hzij hzji h1 h2
      refine ⟨?_, by simp [cpSepMultiConJI, Cons.sat, Guard.active, hB]⟩
      rcases hz with rfl | rfl
      · simp [cpSepMultiConIJ, Cons.sat, Guard.active, hzij]
      · rw [cpSepMultiConIJ, sat_lin_iff]
        intro _
        rw [holds_ge_iff]
        rw [uConMulti, sat_lin_iff] at h1
        have h1a := h1 (by simp)
        rw [holds_ge_iff] at h1a
        simp only [eval_add, eval_sub, eval_smul, eval_const, eval_var, hJI0, hzij] at h1a ⊢
        push_cast at h1a ⊢
        linarith

/-- Concrete assignment refuting the multi-runway direction of C2: in the
global order plane 0 precedes plane 1 (`order[0][1] = iBeforeJ[0][1] = 1`),
the planes are on different runways (`sameRunway = 0`), and plane 1
nevertheless lands earlier in time — legal for the exact realization, but
violating the multi-runway big-M constraint. -/
def nuMultiGap : Var → Int
  | Var.landingTime 0 => 10
  | Var.landingTime 1 => 5
  | Var.landingOrder 0 1 => 1
  | Var.iBeforeJ 0 1 => 1
  | _ => 0

/-- C2, counterexample: under `nuMultiGap` all indicators are integral and
mutually consistent, both landing times are window-feasible, both reified
multi-runway separation constraints of the exact realization are satisfied
(vacuously, the planes being on different runways), yet the corresponding
big-M constraint of the relaxed realization is violated — so the claimed
equivalence fails in the multi-runway case. -/
theorem claim_C2_counterexample :
    (intAsgn nuMultiGap (Var.landingOrder 0 1) = 1 ∧
      intAsgn nuMultiGap (Var.landingOrder 1 0) = 0 ∧
      intAsgn nuMultiGap (Var.iBeforeJ 0 1) = 1 ∧
      intAsgn nuMultiGap (Var.sameRunway 0 1) = 0 ∧
      intAsgn nuMultiGap (Var.sameRunway 1 0) = 0) ∧
    (((planeAt overlapPlanes 0).earliest_landing_time : Rat) ≤
        intAsgn nuMultiGap (Var.landingTime 0) ∧
      intAsgn nuMultiGap (Var.landingTime 0) ≤
        ((planeAt overlapPlanes 0).latest_landing_time : Rat) ∧
      ((planeAt overlapPlanes 1).earliest_landing_time : Rat) ≤
        intAsgn nuMultiGap (Var.landingTime 1) ∧
      intAsgn nuMultiGap (Var.landingTime 1) ≤
        ((planeAt overlapPlanes 1).latest_landing_time : Rat)) ∧
    ((cpSepMultiConIJ overlapSep 0 1).sat (intAsgn nuMultiGap) = true ∧
      (cpSepMultiConJI overlapSep 0 1).sat (intAsgn nuMultiGap) = true) ∧
    (uConMulti overlapPlanes overlapSep 0 1).sat (intAsgn nuMultiGap) = false := by
  refine ⟨⟨by decide, by decide, by decide, by decide, by decide⟩,
    ⟨by decide, by decide, by decide, by decide⟩, ⟨?_, ?_⟩, ?_⟩ <;>
    rw [satInt_cast] <;> decide

/-- Concrete assignment for the C2 witness: plane 0 lands at 2, plane 1 at
5, plane 0 ordered first. -/
def nuOrdered : Var → Int
  | Var.landingTime 0 => 2
  | Var.landingTime 1 => 5
  | Var.landingOrder 0 1 => 1
  | Var.iBeforeJ 0 1 => 1
  | _ => 0

/-- C2, witness: the amended equivalence theorem applied to the pair `(0,1)`
of `overlapPlanes` under `nuOrdered` with `b = 1`. -/
theorem claim_C2_witness :
    (((cpSepConIJ overlapSep 0 1).sat (intAsgn nuOrdered) = true ∧
        (cpSepConJI overlapSep 0 1).sat (intAsgn nuOrdered) = true) ↔
      ((uConSingle overlapPlanes overlapSep 0 1).sat (intAsgn nuOrdered) = true ∧
        (uConSingle overlapPlanes overlapSep 1 0).sat (intAsgn nuOrdered) = true)) ∧
    (∀ z : Rat, (z = 0 ∨ z = 1) → intAsgn nuOrdered (Var.sameRunway 0 1) = z →
      intAsgn nuOrdered (Var.sameRunway 1 0) = z →
      (uConMulti overlapPlanes overlapSep 0 1).sat (intAsgn nuOrdered) = true →
      (uConMulti overlapPlanes overlapSep 1 0).sat (intAsgn nuOrdered) = true →
      ((cpSepMultiConIJ overlapSep 0 1).sat (intAsgn nuOrdered) = true ∧
        (cpSepMultiConJI overlapSep 0 1).sat (intAsgn nuOrdered) = true)) :=
  claim_C2_reified_bigM_equiv overlapPlanes overlapSep 0 1 (intAsgn nuOrdered) 1
    (Or.inr rfl) (by decide) (by norm_num [intAsgn, nuOrdered]) (by decide)
    (by decide) (by decide) (by decide) (by decide)

/-- One-plane instance with zero deviation penalties. -/
def onePlane : List Plane := [⟨0, 0, 5, 10, 0, 0⟩]

/-- Separation matrix for `onePlane`. -/
def oneSep : List (List Int) := [[0]]

/-- A CP-feasible assignment of `onePlane` with a slack late-deviation value:
the plane lands exactly on target yet `late_deviation = 3`. -/
def nuSlack : Var → Int
  | Var.landingTime 0 => 5
  | Var.lateDeviation 0 => 3
  | _ => 0

/-- C5 (amended): in every feasible (hence every returned) solution of either
relaxed MIP realization, `earlyDev_i ≥ 0`, `lateDev_i ≥ 0` and the exact
decomposition `landingTime_i = target_i − earlyDev_i + lateDev_i` hold for
every aircraft; in the exact CP realizations only the deviation lower bounds
`earlyDev_i ≥ max(0, target_i − landingTime_i)` and
`lateDev_i ≥ max(0, landingTime_i − target_i)` are enforced — the exact
decomposition is not posted there and can fail in a returned solution (see
the counterexample). -/
theorem claim_C5_deviation_link (ps : List Plane) (sep : List (List Int))
    (R : Nat) (ν : Var → Rat) (i : Nat) (hi : i < ps.length) :
    ((create_mip_model_single_runway ps sep).feasible ν = true →
      0 ≤ ν (Var.earlyDeviation i) ∧ 0 ≤ ν (Var.lateDeviation i) ∧
      ν (Var.landingTime i) = ((planeAt ps i).target_landing_time : Rat) -
        ν (Var.earlyDeviation i) + ν (Var.lateDeviation i)) ∧
    ((create_mip_model_multiple_runways ps sep R).feasible ν = true →
      0 ≤ ν (Var.earlyDeviation i) ∧ 0 ≤ ν (Var.lateDeviation i) ∧
      ν (Var.landingTime i) = ((planeAt ps i).target_landing_time : Rat) -
        ν (Var.earlyDeviation i) + ν (Var.lateDeviation i)) ∧
    ((create_cp_model_single_runway ps sep).feasible ν = true →
      0 ≤ ν (Var.earlyDeviation i) ∧ 0 ≤ ν (Var.lateDeviation i) ∧
      ((planeAt ps i).target_landing_time : Rat) - ν (Var.landingTime i) ≤
        ν (Var.earlyDeviation i) ∧
      ν (Var.landingTime i) - ((planeAt ps i).target_landing_time : Rat) ≤
        ν (Var.lateDeviation i)) ∧
    ((create_cp_model_multiple_runways ps R sep).feasible ν = true →
      0 ≤ ν (Var.earlyDeviation i) ∧ 0 ≤ ν (Var.lateDeviation i) ∧
      ((planeAt ps i).target_landing_time : Rat) - ν (Var.landingTime i) ≤
        ν (Var.earlyDeviation i) ∧
      ν (Var.landingTime i) - ((planeAt ps i).target_landing_time : Rat) ≤
        ν (Var.lateDeviation i)) := by
  refine ⟨fun hf => ?_, fun hf => ?_, fun hf => ?_, fun hf => ?_⟩
  · have h15 := feasible_cons hf (devConsFor_mem_single hi (by simp [devConsFor]) :
      Cons.lin [] (Expr.var (Var.earlyDeviation i)) .ge (Expr.const 0) ∈ _)
    have h17 := feasible_cons hf (devConsFor_mem_single hi (by simp [devConsFor]) :
      Cons.lin [] (Expr.var (Var.lateDeviation i)) .ge (Expr.const 0) ∈ _)
    have h18 := feasible_cons hf (devConsFor_mem_single hi (by simp [devConsFor]) :
      Cons.lin [] (Expr.var (Var.landingTime i)) .eq
        (Expr.const (planeAt ps i).target_landing_time -
          Expr.var (Var.earlyDeviation i) + Expr.var (Var.lateDeviation i)) ∈ _)
    rw [sat_lin_nil_iff, holds_ge_iff] at h15 h17
    rw [sat_lin_nil_iff, holds_eq_iff] at h18
    simp only [eval_add, eval_sub, eval_const, eval_var] at h15 h17 h18
    exact ⟨by simpa using h15, by simpa using h17, h18⟩
  · have h15 := feasible_cons hf (devConsFor_mem_multi hi (by simp [devConsFor]) :
      Cons.lin [] (Expr.var (Var.earlyDeviation i)) .ge (Expr.const 0) ∈ _)
    have h17 := feasible_cons hf (devConsFor_mem_multi hi (by simp [devConsFor]) :
      Cons.lin [] (Expr.var (Var.lateDeviation i)) .ge (Expr.const 0) ∈ _)
    have h18 := feasible_cons hf (devConsFor_mem_multi hi (by simp [devConsFor]) :
      Cons.lin [] (Expr.var (Var.landingTime i)) .eq
        (Expr.const (planeAt ps i).target_landing_time -
          Expr.var (Var.earlyDeviation i) + Expr.var (Var.lateDeviation i)) ∈ _)
    rw [sat_lin_nil_iff, holds_ge_iff] at h15 h17
    rw [sat_lin_nil_iff, holds_eq_iff] at h18
    simp only [eval_add, eval_sub, eval_const, eval_var] at h15 h17 h18
    exact ⟨by simpa using h15, by simpa using h17, h18⟩
  · have h1 := feasible_cons hf (cpDevConsFor_mem_single hi (by simp [cpDevConsFor]) :
      Cons.lin [] (Expr.var (Var.earlyDeviation i)) .ge
        (Expr.const (planeAt ps i).target_landing_time -
          Expr.var (Var.landingTime i)) ∈ _)
    have h2 := feasible_cons hf (cpDevConsFor_mem_single hi (by simp [cpDevConsFor]) :
      Cons.lin [] (Expr.var (Var.earlyDeviation i)) .ge (Expr.const 0) ∈ _)
    have h3 := feasible_cons hf (cpDevConsFor_mem_single hi (by simp [cpDevConsFor]) :
      Cons.lin [] (Expr.var (Var.lateDeviation i)) .ge
        (Expr.var (Var.landingTime i) -
          Expr.const (planeAt ps i).target_landing_time) ∈ _)
    have h4 := feasible_cons hf (cpDevConsFor_mem_single hi (by simp [cpDevConsFor]) :
      Cons.lin [] (Expr.var (Var.lateDeviation i)) .ge (Expr.const 0) ∈ _)
    rw [sat_lin_nil_iff, holds_ge_iff] at h1 h2 h3 h4
    simp only [eval_add, eval_sub, eval_const, eval_var] at h1 h2 h3 h4
    exact ⟨by simpa using h2, by simpa using h4, h1, h3⟩
  · have h1 := feasible_cons hf (cpDevConsFor_mem_multi hi (by simp [cpDevConsFor]) :
      Cons.lin [] (Expr.var (Var.earlyDeviation i)) .ge
        (Expr.const (planeAt ps i).target_landing_time -
          Expr.var (Var.landingTime i)) ∈ _)
    have h2 := feasible_cons hf (cpDevConsFor_mem_multi hi (by simp [cpDevConsFor]) :
      Cons.lin [] (Expr.var (Var.earlyDeviation i)) .ge (Expr.const 0) ∈ _)
    have h3 := feasible_cons hf (cpDevConsFor_mem_multi hi (by simp [cpDevConsFor]) :
      Cons.lin [] (Expr.var (Var.lateDeviation i)) .ge
        (Expr.var (Var.landingTime i) -
          Expr.const (planeAt ps i).target_landing_time) ∈ _)
    have h4 := feasible_cons hf (cpDevConsFor_mem_multi hi (by simp [cpDevConsFor]) :
      Cons.lin [] (Expr.var (Var.lateDeviation i)) .ge (Expr.const 0) ∈ _)
    rw [sat_lin_nil_iff, holds_ge_iff] at h1 h2 h3 h4
    simp only [eval_add, eval_sub, eval_const, eval_var] at h1 h2 h3 h4
    exact ⟨by simpa using h2, by simpa using h4, h1, h3⟩

/-- C5, counterexample: `nuSlack` is a feasible — hence returnable — solution
of the exact single-runway CP model of `onePlane`, yet it violates the exact
decomposition `landingTime = target − earlyDev + lateDev` (5 ≠ 5 − 0 + 3):
the CP builders never post constraint (18). -/
theorem claim_C5_counterexample :
    (create_cp_model_single_runway onePlane oneSep).feasible (intAsgn nuSlack) = true ∧
    ¬(intAsgn nuSlack (Var.landingTime 0) =
      ((planeAt onePlane 0).target_landing_time : Rat) -
        intAsgn nuSlack (Var.earlyDeviation 0) + intAsgn nuSlack (Var.lateDeviation 0)) := by
  refine ⟨by rw [feasibleInt_cast]; decide, fun h => ?_⟩
  norm_num [intAsgn, nuSlack, planeAt, onePlane] at h

/-- An assignment landing the single plane of `onePlane` exactly on target,
on runway 0, feasible for all four builders. -/
def nuGood : Var → Int
  | Var.landingTime 0 => 5
  | Var.landingRunway 0 0 => 1
  | _ => 0

/-- C5, witness: the amended theorem applied to `onePlane` under the feasible
assignment `nuGood` for all four model builders. -/
theorem claim_C5_witness :
    (0 ≤ intAsgn nuGood (Var.earlyDeviation 0) ∧
      0 ≤ intAsgn nuGood (Var.lateDeviation 0) ∧
      intAsgn nuGood (Var.landingTime 0) =
        ((planeAt onePlane 0).target_landing_time : Rat) -
          intAsgn nuGood (Var.earlyDeviation 0) + intAsgn nuGood (Var.lateDeviation 0)) ∧
    (((planeAt onePlane 0).target_landing_time : Rat) -
        intAsgn nuGood (Var.landingTime 0) ≤ intAsgn nuGood (Var.earlyDeviation 0) ∧
      intAsgn nuGood (Var.landingTime 0) -
          ((planeAt onePlane 0).target_landing_time : Rat) ≤
        intAsgn nuGood (Var.lateDeviation 0)) := by
  have h := claim_C5_deviation_link onePlane oneSep 1 (intAsgn nuGood) 0 (by decide)
  exact ⟨h.1 (by rw [feasibleInt_cast]; decide),
    (h.2.2.1 (by rw [feasibleInt_cast]; decide)).2.2⟩

/-- C10: in every feasible solution of the exact multi-runway CP model, for
each pair `i < j` the two reified constraints force
`same_runway[i][j] = 1` exactly when `runway[i] = runway[j]`; a
spuriously-1 indicator is impossible in this realization. -/
theorem claim_C10_sameRunway_reified (ps : List Plane) (sep : List (List Int))
    (R : Nat) (ν : Var → Rat) (i j : Nat) (hij : i < j) (hj : j < ps.length)
    (hf : (create_cp_model_multiple_runways ps R sep).feasible ν = true) :
    ν (Var.sameRunway i j) = 1 ↔ ν (Var.runway i) = ν (Var.runway j) := by
  have hup : (i, j) ∈ pairsUpper ps.length :=
    mem_pairsUpper.mpr ⟨lt_trans hij hj, hj, hij⟩
  have hbool : ν (Var.sameRunway i j) = 0 ∨ ν (Var.sameRunway i j) = 1 := by
    refine feasible_bool hf ?_
    simp only [create_cp_model_multiple_runways]
    exact List.mem_flatMap.mpr ⟨(i, j), hup, by simp⟩
  have heq := feasible_cons hf (cpPairConsMulti_mem hup (by simp [cpPairConsMulti]) :
    cpRunwayEqCon i j ∈ _)
  have hne := feasible_cons hf (cpPairConsMulti_mem hup (by simp [cpPairConsMulti]) :
    cpRunwayNeCon i j ∈ _)
  rw [cpRunwayEqCon, sat_lin_iff] at heq
  rw [cpRunwayNeCon, sat_lin_iff] at hne
  constructor
  · intro h1
    have h2 := heq (by simp [Guard.active, h1])
    rw [holds_eq_iff] at h2
    simpa [eval_var] using h2
  · intro hr
    rcases hbool with h0 | h1
    · have h2 := hne (by simp [Guard.active, h0])
      rw [holds_ne_iff] at h2
      simp only [eval_var] at h2
      exact absurd hr h2
    · exact h1

/-- A feasible assignment of the exact multi-runway CP model on
`overlapPlanes` with two runways: the planes land simultaneously on
different runways. -/
def nuCpTwo : Var → Int
  | Var.landingTime 0 => 5
  | Var.landingTime 1 => 5
  | Var.position 1 => 1
  | Var.iBeforeJ 0 1 => 1
  | Var.runway 1 => 1
  | _ => 0

/-- C10, witness: the reification theorem applied to the concrete feasible
assignment `nuCpTwo` (different runways, indicator 0). -/
theorem claim_C10_witness :
    intAsgn nuCpTwo (Var.sameRunway 0 1) = 1 ↔
      intAsgn nuCpTwo (Var.runway 0) = intAsgn nuCpTwo (Var.runway 1) :=
  claim_C10_sameRunway_reified overlapPlanes overlapSep 2 (intAsgn nuCpTwo) 0 1
    (by decide) (by decide) (by rw [feasibleInt_cast]; decide)

/-- A one-plane instance violating every validity rule at once: earliest 10 >
target 5 > latest 2, and a negative separation entry. -/
def invalidPlanes : List Plane := [⟨0, 10, 5, 2, 1, 1⟩]

/-- Separation matrix for `invalidPlanes`, with a negative entry. -/
def invalidSep : List (List Int) := [[-3]]

/-- C6 (amended): model construction performs no input validation and cannot
fail — no `InvalidInstance` error exists in the code. For every instance,
whether or not the windows are ordered, the separations non-negative, or the
runway count positive, variable creation completes, posting the landing-time
bounds `[earliest_i, latest_i]` verbatim (even when inverted). -/
theorem claim_C6_no_validation (ps : List Plane) (sep : List (List Int))
    (R : Nat) (i : Nat) (hi : i < ps.length) :
    (Var.landingTime i, (planeAt ps i).earliest_landing_time,
      (planeAt ps i).latest_landing_time) ∈
      (create_mip_model_multiple_runways ps sep R).bounds := by
  simp only [create_mip_model_multiple_runways, List.mem_append]
  exact Or.inl (Or.inl (Or.inl (Or.inl (Or.inl (List.mem_map.mpr
    ⟨i, List.mem_range.mpr hi, rfl⟩)))))

/-- C6, counterexample: the invalid instance `invalidPlanes` with zero
runways — which the claim says must be rejected with `InvalidInstance` — is
accepted: the multi-runway MIP builder runs to completion and produces
exactly this variable set (with inverted landing-time bounds and clamped
deviation domains). -/
theorem claim_C6_counterexample :
    (planeAt invalidPlanes 0).target_landing_time <
        (planeAt invalidPlanes 0).earliest_landing_time ∧
    (planeAt invalidPlanes 0).latest_landing_time <
        (planeAt invalidPlanes 0).target_landing_time ∧
    sepAt invalidSep 0 0 < 0 ∧
    (create_mip_model_multiple_runways invalidPlanes invalidSep 0).bounds =
      [(Var.landingTime 0, 10, 2), (Var.earlyDeviation 0, 0, 0),
        (Var.lateDeviation 0, 0, 0)] := by
  decide

/-- C6, witness: the amended no-validation theorem applied to the invalid
instance itself. -/
theorem claim_C6_witness :
    (Var.landingTime 0, (planeAt invalidPlanes 0).earliest_landing_time,
      (planeAt invalidPlanes 0).latest_landing_time) ∈
      (create_mip_model_multiple_runways invalidPlanes invalidSep 0).bounds :=
  claim_C6_no_validation invalidPlanes invalidSep 0 0 (by decide)

/-- C8: for every instance — including ones violating
`earliest ≤ target ≤ latest` — all four builders create the deviation
variables with lower bound 0, upper bound `max(target−earliest, 0)` for
`earlyDev` and `max(latest−target, 0)` for `lateDev`; a negative window
width is silently clamped to the degenerate domain `[0,0]` instead of being
rejected. -/
theorem claim_C8_clamped_deviation_bounds (ps : List Plane) (sep : List (List Int))
    (R : Nat) (i : Nat) (hi : i < ps.length) :
    ((Var.earlyDeviation i, 0,
        max ((planeAt ps i).target_landing_time -
          (planeAt ps i).earliest_landing_time) 0) ∈
        (create_mip_model_multiple_runways ps sep R).bounds ∧
      (Var.lateDeviation i, 0,
        max ((planeAt ps i).latest_landing_time -
          (planeAt ps i).target_landing_time) 0) ∈
        (create_mip_model_multiple_runways ps sep R).bounds) ∧
    ((Var.earlyDeviation i, 0,
        max ((planeAt ps i).target_landing_time -
          (planeAt ps i).earliest_landing_time) 0) ∈
        (create_mip_model_single_runway ps sep).bounds ∧
      (Var.lateDeviation i, 0,
        max ((planeAt ps i).latest_landing_time -
          (planeAt ps i).target_landing_time) 0) ∈
        (create_mip_model_single_runway ps sep).bounds) ∧
    ((Var.earlyDeviation i, 0,
        max ((planeAt ps i).target_landing_time -
          (planeAt ps i).earliest_landing_time) 0) ∈
        (create_cp_model_single_runway ps sep).bounds ∧
      (Var.lateDeviation i, 0,
        max ((planeAt ps i).latest_landing_time -
          (planeAt ps i).target_landing_time) 0) ∈
        (create_cp_model_single_runway ps sep).bounds) ∧
    ((Var.earlyDeviation i, 0,
        max ((planeAt ps i).target_landing_time -
          (planeAt ps i).earliest_landing_time) 0) ∈
        (create_cp_model_multiple_runways ps R sep).bounds ∧
      (Var.lateDeviation i, 0,
        max ((planeAt ps i).latest_landing_time -
          (planeAt ps i).target_landing_time) 0) ∈
        (create_cp_model_multiple_runways ps R sep).bounds) ∧
    ((planeAt ps i).target_landing_time < (planeAt ps i).earliest_landing_time →
      max ((planeAt ps i).target_landing_time -
        (planeAt ps i).earliest_landing_time) 0 = 0) := by
  have he : (Var.earlyDeviation i, 0,
      max ((planeAt ps i).target_landing_time -
        (planeAt ps i).earliest_landing_time) 0) ∈ earlyDeviationBounds ps :=
    List.mem_map.mpr ⟨i, List.mem_range.mpr hi, rfl⟩
  have hl : (Var.lateDeviation i, 0,
      max ((planeAt ps i).latest_landing_time -
        (planeAt ps i).target_landing_time) 0) ∈ lateDeviationBounds ps :=
    List.mem_map.mpr ⟨i, List.mem_range.mpr hi, rfl⟩
  refine ⟨⟨?_, ?_⟩, ⟨?_, ?_⟩, ⟨?_, ?_⟩, ⟨?_, ?_⟩, fun h => by omega⟩ <;>
    simp only [create_mip_model_multiple_runways, create_mip_model_single_runway,
      create_cp_model_single_runway, create_cp_model_multiple_runways,
      List.mem_append]
  · exact Or.inl (Or.inl (Or.inl (Or.inr he)))
  · exact Or.inl (Or.inl (Or.inr hl))
  · exact Or.inl (Or.inr he)
  · exact Or.inr hl
  · exact Or.inl (Or.inr he)
  · exact Or.inr hl
  · exact Or.inl (Or.inl (Or.inr he))
  · exact Or.inl (Or.inr hl)

/-- C8, witness: the clamped-bounds theorem applied to the invalid instance
(where the clamp bites: both deviation domains degenerate to `[0,0]`). -/
theorem claim_C8_witness :
    (Var.earlyDeviation 0, 0,
      max ((planeAt invalidPlanes 0).target_landing_time -
        (planeAt invalidPlanes 0).earliest_landing_time) 0) ∈
      (create_mip_model_multiple_runways invalidPlanes invalidSep 0).bounds ∧
    max ((planeAt invalidPlanes 0).target_landing_time -
      (planeAt invalidPlanes 0).earliest_landing_time) 0 = 0 := by
  have h := claim_C8_clamped_deviation_bounds invalidPlanes invalidSep 0 0 (by decide)
  exact ⟨h.1.1, h.2.2.2.2 (by decide)⟩

/-- C1 (amended): for every well-formed instance and every ordered pair
`(i,j)` with `i ≠ j`, the classification places the pair in at most one of
the sets W, V, U, and it places it in exactly one if and only if
`earliest_i ≤ latest_j`; when `latest_j < earliest_i` (aircraft j's window
ends strictly before aircraft i's begins) the pair is in none of the three
sets, refuting the claimed "exactly one". -/
theorem claim_C1_classification (ps : List Plane) (sep : List (List Int))
    (i j : Nat) (hwf : wellFormed ps) (hi : i < ps.length) (hj : j < ps.length)
    (hne : i ≠ j) :
    (¬((i, j) ∈ certain_with_separation_pairs ps sep ∧
        (i, j) ∈ certain_with_no_separation_pairs ps sep) ∧
      ¬((i, j) ∈ certain_with_separation_pairs ps sep ∧
        (i, j) ∈ uncertain_pairs ps) ∧
      ¬((i, j) ∈ certain_with_no_separation_pairs ps sep ∧
        (i, j) ∈ uncertain_pairs ps)) ∧
    (((i, j) ∈ certain_with_separation_pairs ps sep ∨
        (i, j) ∈ certain_with_no_separation_pairs ps sep ∨
        (i, j) ∈ uncertain_pairs ps) ↔
      (planeAt ps i).earliest_landing_time ≤ (planeAt ps j).latest_landing_time) := by
  have hpi := hwf _ (planeAt_mem hi)
  have hpj := hwf _ (planeAt_mem hj)
  simp only [certain_with_separation_pairs, certain_with_no_separation_pairs,
    uncertain_pairs, mem_pairsRange, pairInW, pairInV, pairInU,
    Bool.and_eq_true, Bool.or_eq_true, decide_eq_true_eq]
  constructor
  · refine ⟨?_, ?_, ?_⟩ <;> rintro ⟨⟨-, -, -, h1⟩, ⟨-, -, -, h2⟩⟩ <;> omega
  · constructor
    · rintro (⟨-, -, -, h⟩ | ⟨-, -, -, h⟩ | ⟨-, -, -, h⟩) <;> omega
    · intro h
      by_cases hlt : (planeAt ps i).latest_landing_time <
          (planeAt ps j).earliest_landing_time
      · by_cases hsep : (planeAt ps i).latest_landing_time + sepAt sep i j ≤
            (planeAt ps j).earliest_landing_time
        · exact Or.inl ⟨hi, hj, hne, hlt, hsep⟩
        · exact Or.inr (Or.inl ⟨hi, hj, hne, hlt, by omega⟩)
      · exact Or.inr (Or.inr ⟨hi, hj, hne, by omega⟩)

/-- C1, counterexample to the claim as stated: in the well-formed two-plane
instance `disjointPlanes`, the ordered pair `(1,0)` — whose second plane's
window ends strictly before the first plane's begins — is classified into
none of W, V, U, so the pair is not in exactly one of the three sets. -/
theorem claim_C1_counterexample :
    wellFormed disjointPlanes ∧ (1 : Nat) ≠ (0 : Nat) ∧
      (1 : Nat) < disjointPlanes.length ∧
      ¬((1, 0) ∈ certain_with_separation_pairs disjointPlanes disjointSep) ∧
      ¬((1, 0) ∈ certain_with_no_separation_pairs disjointPlanes disjointSep) ∧
      ¬((1, 0) ∈ uncertain_pairs disjointPlanes) := by
  refine ⟨(wellFormed_iff _).mpr (by decide), by decide, by decide, ?_, ?_, ?_⟩ <;>
    decide

/-- C1, witness: the amended classification theorem applied to the concrete
pair `(0,1)` of `disjointPlanes` (which is classified, into W). -/
theorem claim_C1_witness :
    ¬((0, 1) ∈ certain_with_separation_pairs disjointPlanes disjointSep ∧
        (0, 1) ∈ uncertain_pairs disjointPlanes) ∧
      (((0, 1) ∈ certain_with_separation_pairs disjointPlanes disjointSep ∨
          (0, 1) ∈ certain_with_no_separation_pairs disjointPlanes disjointSep ∨
          (0, 1) ∈ uncertain_pairs disjointPlanes) ↔
        (planeAt disjointPlanes 0).earliest_landing_time ≤
          (planeAt disjointPlanes 1).latest_landing_time) := by
  have h := claim_C1_classification disjointPlanes disjointSep 0 1
    ((wellFormed_iff _).mpr (by decide)) (by decide) (by decide) (by decide)
  exact ⟨h.1.2.1, h.2⟩


/-- Python control-flow outcomes relevant to `read_data`: the two exception
kinds it can hit, and the non-termination of the row-collection loop at end
of file (`readline` returns `""` forever, contributing no integers). -/
inductive PyErr
  | valueError
  | indexError
  | diverge
deriving DecidableEq

/-- One whitespace-separated token of the input file, abstracted by how the
Python numeric conversions treat it: an integer literal (accepted by both
`int()` and `float()`), a non-integer numeric literal (accepted only by
`float()`, value kept as an exact rational), or a token both conversions
reject with `ValueError`. The byte-level tokenization of
`line.strip().split()` is abstracted away: a physical line is modelled as
its token list, the empty list standing for a blank line (and for the `""`
that `readline` returns at end of file). -/
inductive Tok
  | intTok (z : Int)
  | floatTok (q : Rat)
  | badTok
deriving DecidableEq

/-- Result of `int(token)`. -/
def tokInt? : Tok → Option Int
  | .intTok z => some z
  | _ => none

/-- Result of `float(token)`. -/
def tokFloat? : Tok → Option Rat
  | .intTok z => some (z : Rat)
  | .floatTok q => some q
  | .badTok => none

/-- A physical line of the instance file, as its token list. -/
abbrev Line := List Tok

/-- Indexing `tokens[k]`; a missing index raises `IndexError`. -/
def getTok (ts : Line) (k : Nat) : Except PyErr Tok :=
  match ts.get? k with
  | some t => .ok t
  | none => .error .indexError

/-- The call `int(tokens[k])`: `IndexError` on a missing token, `ValueError`
on a token `int()` rejects. -/
def parseIntTok (ts : Line) (k : Nat) : Except PyErr Int := do
  let t ← getTok ts k
  match tokInt? t with
  | some z => pure z
  | none => throw .valueError

/-- The call `float(tokens[k])`. -/
def parseFloatTok (ts : Line) (k : Nat) : Except PyErr Rat := do
  let t ← getTok ts k
  match tokFloat? t with
  | some q => pure q
  | none => throw .valueError

/-- The comprehension `[int(x) for x in line.strip().split()]`. -/
def lineInts (l : Line) : Except PyErr (List Int) :=
  l.mapM fun t =>
    match tokInt? t with
    | some z => Except.ok z
    | none => Except.error PyErr.valueError

/-- The row-collection loop of `read_data`:
`while len(separation_row) < num_planes:` read a line and extend the row by
all its integers. A whole line is always consumed, so the loop stops at the
first time the row holds at least `num_planes` integers — possibly more. At
end of file the Python loop never terminates (modelled by `PyErr.diverge`
when the line list is exhausted). -/
def collectRow (n : Int) (row : List Int) : List Line →
    Except PyErr (List Int × List Line)
  | [] => if (row.length : Int) < n then .error .diverge else .ok (row, [])
  | l :: rest =>
    if (row.length : Int) < n then
      match lineInts l with
      | .error e => .error e
      | .ok xs => collectRow n (row ++ xs) rest
    else .ok (row, l :: rest)

/-- Parsing one aircraft record line: four ints then two floats, in source
order. -/
def parsePlaneLine (ts : Line) : Except PyErr Plane := do
  let a ← parseIntTok ts 0
  let e ← parseIntTok ts 1
  let t ← parseIntTok ts 2
  let l ← parseIntTok ts 3
  let pe ← parseFloatTok ts 4
  let pl ← parseFloatTok ts 5
  pure ⟨a, e, t, l, pe, pl⟩

/-- The main loop of `read_data`: for each of the `num_planes` iterations,
read one plane line, then collect its separation row; `readline` at end of
file yields a blank line. -/
def readPlanes (n : Int) : Nat → List Line →
    Except PyErr (List Plane × List (List Int) × List Line)
  | 0, ls => .ok ([], [], ls)
  | c + 1, ls =>
    match parsePlaneLine (ls.headD []) with
    | .error e => .error e
    | .ok p =>
      match collectRow n [] ls.tail with
      | .error e => .error e
      | .ok (row, rest) =>
        match readPlanes n c rest with
        | .error e => .error e
        | .ok (ps, rows, rest2) => .ok (p :: ps, row :: rows, rest2)

/-- Outcome of a call to `read_data`: the successful 3-tuple, the caught-error
4-tuple `(None, None, None, None)`, or no return at all (uncaught exception
or divergence). -/
inductive ReadResult
  | ok (num_planes : Int) (planes_data : List Plane)
      (separation_times : List (List Int))
  | errNones
  | abnormal
deriving DecidableEq

/-- Outcome of the `except` clauses: a caught `ValueError` yields the
4-tuple of `None`s; an uncaught `IndexError` or the divergent row loop never
returns a tuple. -/
def errOf : PyErr → ReadResult
  | .valueError => .errNones
  | .indexError => .abnormal
  | .diverge => .abnormal

/-- Shallow model of `read_data`: the input is `none` when opening the file
raises `FileNotFoundError`, otherwise the list of the file's (tokenized)
lines. `FileNotFoundError` and `ValueError` are caught and yield the
4-tuple of `None`s; an `IndexError` (too few tokens on a line) propagates
uncaught, and the row loop diverges at end of file — in both of those cases
no tuple is returned. -/
def read_data (file : Option (List Line)) : ReadResult :=
  match file with
  | none => .errNones
  | some lines =>
    match parseIntTok (lines.headD []) 0 with
    | .error e => errOf e
    | .ok n =>
      match parseIntTok (lines.headD []) 1 with
      | .error e => errOf e
      | .ok _ =>
        match readPlanes n n.toNat lines.tail with
        | .error e => errOf e
        | .ok (pd, sep, _) => .ok n pd sep

/-- Number of components of the tuple `read_data` returns, when it returns
one. -/
def ReadResult.tupleLen : ReadResult → Option Nat
  | .ok _ _ _ => some 3
  | .errNones => some 4
  | .abnormal => none

/-- Unpacking the returned tuple into exactly three names, as a caller
written against the documented interface does: succeeds on the 3-tuple;
unpacking the 4-tuple of `None`s raises (too many values to unpack), so no
`None` values are ever bound. -/
def unpack3 : ReadResult → Option (Int × List Plane × List (List Int))
  | .ok n pd sep => some (n, pd, sep)
  | _ => none

theorem collectRow_length {n : Int} {row r : List Int} {ls rest : List Line}
    (h : collectRow n row ls = .ok (r, rest)) : n ≤ (r.length : Int) := by
  induction ls generalizing row with
  | nil =>
    rw [collectRow] at h
    by_cases hlt : (row.length : Int) < n
    · rw [if_pos hlt] at h
      exact absurd h (by simp)
    · rw [if_neg hlt] at h
      simp only [Except.ok.injEq, Prod.mk.injEq] at h
      obtain ⟨rfl, -⟩ := h
      omega
  | cons l ls ih =>
    rw [collectRow] at h
    by_cases hlt : (row.length : Int) < n
    · rw [if_pos hlt] at h
      split at h
      · exact absurd h (by simp)
      · exact ih h
    · rw [if_neg hlt] at h
      simp only [Except.ok.injEq, Prod.mk.injEq] at h
      obtain ⟨rfl, -⟩ := h
      omega

theorem readPlanes_row_length {n : Int} {c : Nat} {ls rest : List Line}
    {pd : List Plane} {sep : List (List Int)}
    (h : readPlanes n c ls = .ok (pd, sep, rest)) :
    ∀ row ∈ sep, n ≤ (row.length : Int) := by
  induction c generalizing ls pd sep rest with
  | zero =>
    simp only [readPlanes, Except.ok.injEq, Prod.mk.injEq] at h
    obtain ⟨-, rfl, -⟩ := h
    simp
  | succ c ih =>
    rw [readPlanes] at h
    cases hp : parsePlaneLine (ls.headD []) with
    | error e => rw [hp] at h; simp at h
    | ok p =>
      rw [hp] at h
      simp only [] at h
      cases hr : collectRow n [] ls.tail with
      | error e => rw [hr] at h; simp at h
      | ok pr =>
        obtain ⟨row2, rest2⟩ := pr
        rw [hr] at h
        simp only [] at h
        cases hrec : readPlanes n c rest2 with
        | error e => rw [hrec] at h; simp at h
        | ok q =>
          obtain ⟨ps2, rows2, rest3⟩ := q
          rw [hrec] at h
          simp only [Except.ok.injEq, Prod.mk.injEq] at h
          obtain ⟨-, hsep, -⟩ := h
          subst hsep
          intro row hrow
          rcases List.mem_cons.mp hrow with rfl | hrow
          · exact collectRow_length hr
          · exact ih hrec row hrow

theorem collectRow_exact (ls₁ : List Line) (xss : List (List Int))
    (hp : ls₁.map lineInts = xss.map Except.ok) (n : Int) (row : List Int)
    (htotal : ((row.length : Int) + ((xss.map List.length).sum : Int)) = n)
    (hpre : ∀ k, k < ls₁.length →
      ((row.length : Int) + (((xss.take k).map List.length).sum : Int)) < n)
    (ls₂ : List Line) :
    collectRow n row (ls₁ ++ ls₂) = .ok (row ++ xss.flatten, ls₂) := by
  induction ls₁ generalizing xss row with
  | nil =>
    have hx : xss = [] := by
      cases xss with
      | nil => rfl
      | cons a b => simp at hp
    subst hx
    simp only [List.map_nil, List.sum_nil, Int.natCast_zero, add_zero] at htotal
    cases ls₂ with
    | nil =>
      rw [List.nil_append, collectRow, if_neg (by omega)]
      simp
    | cons l2 t2 =>
      rw [List.nil_append, collectRow, if_neg (by omega)]
      simp
  | cons l ls₁ ih =>
    cases xss with
    | nil => simp at hp
    | cons xs xss =>
      simp only [List.map_cons, List.cons.injEq] at hp
      obtain ⟨hl, hp2⟩ := hp
      have h0 : (row.length : Int) < n := by
        have h1 := hpre 0 (by simp)
        simpa using h1
      have ih2 := ih xss hp2 (row ++ xs)
        (by
          simp only [List.map_cons, List.sum_cons, List.length_append] at htotal ⊢
          push_cast at htotal ⊢
          linarith)
        (fun k hk => by
          have h2 := hpre (k + 1) (by simpa using hk)
          simp only [List.take_succ_cons, List.map_cons, List.sum_cons,
            List.length_append] at h2 ⊢
          push_cast at h2 ⊢
          linarith)
      rw [List.cons_append, collectRow, if_pos h0, hl]
      simpa using ih2

/-- C7 (amended): the separation rows of `read_data` are produced by
concatenating whole wrapped lines until **at least** `num_planes` integers
are collected: every returned row has length at least `num_planes`, and the
row is exactly the concatenation of the consumed lines — so when the wrapped
lines carry exactly `num_planes` integers in total (the documented format)
the row has exactly `num_planes` entries, but a physical line carrying extra
values makes the row longer (the extras are kept, see the counterexample). -/
theorem claim_C7_row_collection :
    (∀ (file : Option (List Line)) (n : Int) (pd : List Plane)
        (sep : List (List Int)), read_data file = .ok n pd sep →
      ∀ row ∈ sep, n ≤ (row.length : Int)) ∧
    (∀ (ls₁ ls₂ : List Line) (xss : List (List Int)) (n : Int),
      ls₁.map lineInts = xss.map Except.ok →
      (((xss.map List.length).sum : Int)) = n →
      (∀ k, k < ls₁.length → ((((xss.take k).map List.length).sum : Int)) < n) →
      collectRow n [] (ls₁ ++ ls₂) = .ok (xss.flatten, ls₂) ∧
        ((xss.flatten.length : Int)) = n) := by
  constructor
  · intro file n pd sep h row hrow
    match file with
    | none => exact absurd h (by simp [read_data])
    | some lines =>
      rw [read_data] at h
      cases h0 : parseIntTok (lines.headD []) 0 with
      | error e => rw [h0] at h; cases e <;> simp [errOf] at h
      | ok m =>
        rw [h0] at h
        simp only [] at h
        cases h1 : parseIntTok (lines.headD []) 1 with
        | error e => rw [h1] at h; cases e <;> simp [errOf] at h
        | ok m2 =>
          rw [h1] at h
          simp only [] at h
          cases h2 : readPlanes m m.toNat lines.tail with
          | error e => rw [h2] at h; cases e <;> simp [errOf] at h
          | ok t =>
            obtain ⟨pd3, sep3, rest3⟩ := t
            rw [h2] at h
            simp only [ReadResult.ok.injEq] at h
            obtain ⟨rfl, rfl, rfl⟩ := h
            exact readPlanes_row_length h2 row hrow
  · intro ls₁ ls₂ xss n hp htot hpre
    have he := collectRow_exact ls₁ xss hp n [] (by simpa using htot)
      (fun k hk => by simpa using hpre k hk) ls₂
    refine ⟨by simpa using he, ?_⟩
    have hlen : xss.flatten.length = (xss.map List.length).sum := by
      simp [List.length_flatten]
    omega

/-- Input file on which the claimed "never more than N" fails: the first
separation row is given on one physical line carrying three integers for
`num_planes = 2`. -/
def sepOverfullLines : List Line :=
  [[.intTok 2, .intTok 0],
   [.intTok 0, .intTok 0, .intTok 5, .intTok 10, .intTok 1, .intTok 1],
   [.intTok 1, .intTok 2, .intTok 3],
   [.intTok 0, .intTok 0, .intTok 5, .intTok 10, .intTok 1, .intTok 1],
   [.intTok 9, .intTok 9]]

/-- C7, counterexample: on `sepOverfullLines`, `read_data` succeeds and
returns a first separation row `[1, 2, 3]` of length 3 > `num_planes = 2`:
the extra value on the physical line is kept, refuting "exactly N integers
... never more, even when a physical line carries extra values". -/
theorem claim_C7_counterexample :
    read_data (some sepOverfullLines) =
      ReadResult.ok 2 [⟨0, 0, 5, 10, 1, 1⟩, ⟨0, 0, 5, 10, 1, 1⟩]
        [[1, 2, 3], [9, 9]] ∧
    ¬(([1, 2, 3] : List Int).length = 2) := by
  exact ⟨by decide, by decide⟩

/-- Input file in the documented format, the first separation row wrapped
across two physical lines of one integer each. -/
def sepWrappedLines : List Line :=
  [[.intTok 2, .intTok 0],
   [.intTok 0, .intTok 0, .intTok 5, .intTok 10, .intTok 1, .intTok 1],
   [.intTok 1],
   [.intTok 2],
   [.intTok 0, .intTok 0, .intTok 5, .intTok 10, .intTok 1, .intTok 1],
   [.intTok 3, .intTok 4]]

/-- C7, witness: on the documented-format file `sepWrappedLines` every
returned row has at least `num_planes = 2` integers, and the wrapped-line
collection consumes exactly the two one-integer lines, producing exactly two
integers. -/
theorem claim_C7_witness :
    (2 : Int) ≤ (([1, 2] : List Int).length : Int) ∧
    collectRow 2 [] (([[.intTok 1], [.intTok 2]] : List Line) ++
      [[.intTok 9, .intTok 9]]) = .ok (([[1], [2]] :
      List (List Int)).flatten, [[.intTok 9, .intTok 9]]) ∧
    (((([[1], [2]] : List (List Int)).flatten.length : Nat) : Int)) = 2 := by
  refine ⟨?_, ?_, ?_⟩
  · exact claim_C7_row_collection.1 (some sepWrappedLines) 2
      [⟨0, 0, 5, 10, 1, 1⟩, ⟨0, 0, 5, 10, 1, 1⟩] [[1, 2], [3, 4]] (by decide)
      [1, 2] (by decide)
  all_goals
    have h := claim_C7_row_collection.2 [[.intTok 1], [.intTok 2]]
      [[.intTok 9, .intTok 9]] [[1], [2]] 2
      (by rfl) (by decide)
      (by
        intro k hk
        have hk2 : k < 2 := by simpa using hk
        interval_cases k <;> decide)
  · exact h.1
  · exact h.2

/-- C9: `read_data` returns the 3-tuple
`(num_planes, planes_data, separation_times)` exactly on the success path,
and the 4-tuple `(None, None, None, None)` exactly on the caught error paths
(missing file — `FileNotFoundError` — or malformed number — `ValueError`);
a caller unpacking exactly three values therefore raises on the error path
instead of receiving `None`s. -/
theorem claim_C9_read_data_arity (file : Option (List Line)) :
    (∀ n pd sep, read_data file = .ok n pd sep →
      (read_data file).tupleLen = some 3 ∧
        unpack3 (read_data file) = some (n, pd, sep)) ∧
    (read_data file = .errNones → (read_data file).tupleLen = some 4 ∧
      unpack3 (read_data file) = none) ∧
    (file = none → read_data file = .errNones) := by
  refine ⟨fun n pd sep h => ?_, fun h => ?_, fun h => ?_⟩
  · rw [h]
    exact ⟨rfl, rfl⟩
  · rw [h]
    exact ⟨rfl, rfl⟩
  · rw [h]
    rfl

/-- C9, witness: the arity theorem applied to a well-formed one-plane file,
to a file whose first token is not a number, and to a missing file. -/
theorem claim_C9_witness :
    ((read_data (some [[.intTok 1, .intTok 10],
        [.intTok 0, .intTok 0, .intTok 5, .intTok 10, .intTok 1, .intTok 1],
        [.intTok 0]])).tupleLen = some 3 ∧
      unpack3 (read_data (some [[.intTok 1, .intTok 10],
        [.intTok 0, .intTok 0, .intTok 5, .intTok 10, .intTok 1, .intTok 1],
        [.intTok 0]])) = some (1, [⟨0, 0, 5, 10, 1, 1⟩], [[0]])) ∧
    ((read_data (some [[.badTok, .intTok 0]])).tupleLen = some 4 ∧
      unpack3 (read_data (some [[.badTok, .intTok 0]])) = none) ∧
    read_data (none : Option (List Line)) = .errNones := by
  refine ⟨(claim_C9_read_data_arity (some [[.intTok 1, .intTok 10],
      [.intTok 0, .intTok 0, .intTok 5, .intTok 10, .intTok 1, .intTok 1],
      [.intTok 0]])).1 1 [⟨0, 0, 5, 10, 1, 1⟩] [[0]] (by decide), ?_, ?_⟩
  · exact (claim_C9_read_data_arity (some [[.badTok, .intTok 0]])).2.1 (by decide)
  · exact (claim_C9_read_data_arity (none : Option (List Line))).2.2 rfl

end ALS
